import Mathlib

/-
Shallow embedding of the GM Agent WebSocket composable
(src/frontend/src/composables/useGMWebSocket.ts, refactored version:
the second document in that file, whose line numbers 581-1281 the claims
cite).  Reactive refs become fields of a single state record; the JS
objects shared between the three views (current round list, pending
confirmation, finalized history) are modelled as values, with every
cross-view mutation written out explicitly exactly where the source
performs it (updateToolStatus touches all three views; the tool_result
and tool_executing handlers mutate only the entry found in the current
round list, which is the list the source searches).  Nondeterministic
id generation (Date.now plus Math.random) is determinized by a fresh-id
counter in the state.  Message timestamps are omitted: no claim
observes them and they are wall-clock nondeterminism.
-/

namespace GMWS

/-- ToolStatus from the source: pending / approved / rejected are local
confirmation states, executing / applied / success / failed are
execution states (the source keeps both applied and success as distinct
terminal success values). -/
inductive ToolStatus
  | pending
  | approved
  | rejected
  | executing
  | applied
  | success
  | failed
deriving DecidableEq, Repr

/-- Tool parameters: an opaque key-value record.  The source compares
params only via JSON.stringify equality, which corresponds to
structural equality of this ordered association list. -/
abbrev ToolParams := List (String × String)

/-- ToolExecution from the source (unified record for read-only and
mutating tools). -/
@[ext]
structure ToolExecution where
  id : String
  action_id : Option String
  tool_name : String
  params : ToolParams
  status : ToolStatus
  requires_confirmation : Bool
  preview : Option String
  message : Option String
  is_dangerous : Option Bool
deriving DecidableEq, Repr

/-- Message role. -/
inductive Role
  | user
  | assistant
deriving DecidableEq, Repr

/-- GMMessage from the source.  timestamp omitted (wall clock). -/
@[ext]
structure GMMessage where
  role : Role
  content : String
  tools : Option (List ToolExecution)
  actions : Option (List ToolExecution)
  images : Option (List String)
deriving DecidableEq, Repr

/-- ConfirmState from the source.  The source keeps a second field
actions that always aliases the same array as tools (both are assigned
the same confirmTools array and every mutation flows through shared
objects), so it is not duplicated here. -/
@[ext]
structure ConfirmState where
  tools : List ToolExecution
  awaitingConfirmation : Bool
deriving DecidableEq, Repr

/-- ExecutionStats from the source. -/
@[ext]
structure ExecutionStats where
  success : Nat
  failed : Nat
  skipped : Nat
deriving DecidableEq, Repr

/-- ConnectionStatus from the source. -/
inductive ConnectionStatus
  | disconnected
  | connecting
  | connected
  | error
deriving DecidableEq, Repr

/-- One entry of the actions payload of a confirm_actions frame. -/
@[ext]
structure RawAction where
  action_id : String
  tool_name : String
  params : ToolParams
  preview : String
  is_dangerous : Option Bool
deriving DecidableEq, Repr

/-- Server-to-client frames handled by handleMessage. -/
inductive ServerFrame
  | connected (conversation_id : Option String)
  | content (chunk : String)
  | toolCall (tool_name : String) (params : ToolParams) (call_id : Option String)
  | toolExecuting (tool_name : String) (params : ToolParams)
      (preview : Option String) (call_id : Option String)
  | toolResult (tool_name : String) (call_id : Option String)
      (success : Bool) (message : String)
  | confirmActions (actions : List RawAction) (awaiting_confirmation : Option Bool)
  | toolExecuted (action_id : String) (success : Bool) (message : String)
  | done (conversation_id : String) (tool_execution_summary : Option ExecutionStats)
  | error (err : String) (recoverable : Bool)
  | pong
  | roundStart
deriving DecidableEq, Repr

/-- Client-to-server frames put on the wire by sendMessage. -/
inductive ClientFrame
  | userMessage (message : String) (conversation_id : Option String)
      (images : Option (List String)) (enable_web_search : Option Bool)
  | confirmResponse (approved rejected : List String)
  | cancel
deriving DecidableEq, Repr

/-- The whole composable state: every ref of useGMWebSocket plus the
connection-level variables (reconnectAttempts, reconnectTimer) and two
observers: sentFrames records the wire, closedSinceOpen records that a
close event has fired and no open event has replaced the connection
since (used to state the disconnect-safety invariant). -/
@[ext]
structure GMState where
  wsOpen : Bool
  connectionStatus : ConnectionStatus
  closedSinceOpen : Bool
  lastError : Option String
  conversationId : Option String
  messages : List GMMessage
  isLoading : Bool
  streamingContent : String
  currentRoundTools : List ToolExecution
  pendingConfirm : Option ConfirmState
  executionStats : Option ExecutionStats
  reconnectAttempts : Nat
  reconnectTimer : Option Nat
  nextFreshId : Nat
  sentFrames : List ClientFrame
deriving DecidableEq, Repr

/-- JS truthiness of an optional string: undefined and the empty string
are falsy. -/
def optTruthy (o : Option String) : Bool :=
  match o with
  | some v => v != ""
  | none => false

/-- The per-entry effect of updateToolStatus: set the status, and set
the message only when one was passed (the source guards with
message !== undefined). -/
def setStatus (status : ToolStatus) (message : Option String)
    (t : ToolExecution) : ToolExecution :=
  { t with
    status := status
    message := match message with
               | some m => some m
               | none => t.message }

/-- Replace the first element satisfying p by its f-image, as the JS
pattern list.find(p) followed by a mutation of the found object does. -/
def updateFirst {α : Type} (p : α → Bool) (f : α → α) : List α → List α
  | [] => []
  | x :: xs => if p x then f x :: xs else x :: updateFirst p f xs

/-- updateToolStatus restricted to one history message: mutate the
first id-match in msg.tools and the first id-or-action_id match in
msg.actions, as the source loop body does for each message. -/
def updateToolInMessage (toolId : String) (status : ToolStatus)
    (message : Option String) (msg : GMMessage) : GMMessage :=
  { msg with
    tools := msg.tools.map
      (updateFirst (fun t => t.id == toolId) (setStatus status message))
    actions := msg.actions.map
      (updateFirst (fun t => t.id == toolId || t.action_id == some toolId)
        (setStatus status message)) }

/-- updateToolStatus restricted to the pending confirmation: mutate the
first id-match among its tools. -/
def updateToolInConfirm (toolId : String) (status : ToolStatus)
    (message : Option String) (c : ConfirmState) : ConfirmState :=
  { c with
    tools := updateFirst (fun t => t.id == toolId) (setStatus status message)
      c.tools }

/-- updateToolStatus from the source: the single status-update entry
point, mutating the current round list, the pending confirmation and
every history message. -/
def updateToolStatus (s : GMState) (toolId : String) (status : ToolStatus)
    (message : Option String) : GMState :=
  { s with
    currentRoundTools :=
      updateFirst (fun t => t.id == toolId) (setStatus status message)
        s.currentRoundTools
    pendingConfirm := s.pendingConfirm.map (updateToolInConfirm toolId status message)
    messages := s.messages.map (updateToolInMessage toolId status message) }

/-- updateToolStatuses from the source: per-id application of
updateToolStatus, approved ids first, then rejected ids, with
defaultable target statuses. -/
def updateToolStatuses (s : GMState) (approvedIds rejectedIds : List String)
    (targetStatus : Option (ToolStatus × ToolStatus)) : GMState :=
  let approvedStatus := (targetStatus.map Prod.fst).getD ToolStatus.approved
  let rejectedStatus := (targetStatus.map Prod.snd).getD ToolStatus.rejected
  let s1 := approvedIds.foldl
    (fun acc i => updateToolStatus acc i approvedStatus none) s
  rejectedIds.foldl (fun acc i => updateToolStatus acc i rejectedStatus none) s1

/-- The predicate findTool searches with: exact id match when a truthy
call id is given, otherwise first same-name entry still executing,
otherwise nothing. -/
def findToolPred (callId : Option String) (toolName : Option String) :
    ToolExecution → Bool :=
  if optTruthy callId then
    fun t => t.id == callId.getD ""
  else if optTruthy toolName then
    fun t => t.tool_name == toolName.getD "" && t.status == ToolStatus.executing
  else
    fun _ => false

/-- findTool from the source (searches the current round list). -/
def findTool (tools : List ToolExecution) (callId : Option String)
    (toolName : Option String) : Option ToolExecution :=
  tools.find? (findToolPred callId toolName)

/-- What the spec text asks of the name-based fallback, written from
the words of the spec for comparison with findTool: the most recent
same-name entry still executing. -/
def specFindByNameMostRecent (tools : List ToolExecution) (toolName : String) :
    Option ToolExecution :=
  tools.reverse.find?
    (fun t => t.tool_name == toolName && t.status == ToolStatus.executing)

/-- The ToolExecution built from one confirm_actions payload entry. -/
def mkConfirmTool (a : RawAction) : ToolExecution :=
  { id := a.action_id
    action_id := some a.action_id
    tool_name := a.tool_name
    params := a.params
    status := ToolStatus.pending
    requires_confirmation := true
    preview := some a.preview
    message := none
    is_dangerous := a.is_dangerous }

/-- The dedup predicate of the confirm_actions handler: same tool name,
JSON-equal params, and not yet marked requires_confirmation. -/
def confirmMatch (a : RawAction) (t : ToolExecution) : Bool :=
  t.tool_name == a.tool_name && t.params == a.params && !t.requires_confirmation

/-- One iteration of the confirm_actions loop over the round list:
replace the first matching read-only entry in place, else append. -/
def insertConfirmAction (tools : List ToolExecution) (a : RawAction) :
    List ToolExecution :=
  match tools.findIdx? (confirmMatch a) with
  | some i => tools.set i (mkConfirmTool a)
  | none => tools ++ [mkConfirmTool a]

/-- The confirm_actions handler: fold the actions into the round list
and install the fresh pending confirmation (the source pushes the same
objects into confirmTools, which is a map since each built entry is
independent of the accumulating list). -/
def handleConfirmActions (s : GMState) (actions : List RawAction)
    (awaiting : Bool) : GMState :=
  { s with
    currentRoundTools := actions.foldl insertConfirmAction s.currentRoundTools
    pendingConfirm := some
      { tools := actions.map mkConfirmTool
        awaitingConfirmation := awaiting } }

/-- The tool_result handler: find via findTool and set the found entry
to applied or failed with the result message.  The source mutates the
found object, which lives in the current round list (the list findTool
searches); updateFirst with the same predicate changes exactly that
entry. -/
def handleToolResult (s : GMState) (toolName : String) (callId : Option String)
    (success : Bool) (message : String) : GMState :=
  { s with
    currentRoundTools :=
      updateFirst (findToolPred callId (some toolName))
        (fun t => { t with
          status := if success then ToolStatus.applied else ToolStatus.failed
          message := some message })
        s.currentRoundTools }

/-- Fresh id used when a tool_call or tool_executing frame carries no
call_id (determinization of Date.now plus Math.random). -/
def freshCallId (n : Nat) : String := "gen_" ++ toString n

/-- The assistant message snapshotted from the live round, as built
both by the done handler and by sendConfirmResponse: tools only when
nonempty, actions the requires_confirmation subset only when nonempty.
The JSON deep copy of the source is the identity on values. -/
def mkAssistantSnapshot (content : String) (tools : List ToolExecution) :
    GMMessage :=
  let toolsCopy : Option (List ToolExecution) :=
    if tools.length > 0 then some tools else none
  let actionsCopy : Option (List ToolExecution) :=
    toolsCopy.map (fun l => l.filter (fun t => t.requires_confirmation))
  { role := Role.assistant
    content := content
    tools := toolsCopy
    actions := match actionsCopy with
               | some l => if l.length > 0 then some l else none
               | none => none
    images := none }

/-- handleMessage from the source, one case per frame type. -/
def handleMessage (s : GMState) (f : ServerFrame) : GMState :=
  match f with
  | ServerFrame.connected convId =>
    if optTruthy convId then { s with conversationId := convId } else s
  | ServerFrame.content chunk =>
    { s with streamingContent := s.streamingContent ++ chunk }
  | ServerFrame.toolCall toolName params callId =>
    let cid := if optTruthy callId then callId.getD ""
               else freshCallId s.nextFreshId
    { s with
      currentRoundTools := s.currentRoundTools ++
        [{ id := cid, action_id := none, tool_name := toolName,
           params := params,
           status := ToolStatus.executing, requires_confirmation := false,
           preview := none, message := none, is_dangerous := none }]
      nextFreshId :=
        if optTruthy callId then s.nextFreshId else s.nextFreshId + 1 }
  | ServerFrame.toolExecuting toolName params preview callId =>
    if (findTool s.currentRoundTools callId (some toolName)).isSome then
      { s with
        currentRoundTools :=
          updateFirst (findToolPred callId (some toolName))
            (fun t => { t with preview := preview }) s.currentRoundTools }
    else
      let cid := if optTruthy callId then callId.getD ""
                 else freshCallId s.nextFreshId
      { s with
        currentRoundTools := s.currentRoundTools ++
          [{ id := cid, action_id := none, tool_name := toolName,
             params := params, status := ToolStatus.executing,
             requires_confirmation := false, preview := preview,
             message := none, is_dangerous := none }]
        nextFreshId :=
          if optTruthy callId then s.nextFreshId else s.nextFreshId + 1 }
  | ServerFrame.toolResult toolName callId success message =>
    handleToolResult s toolName callId success message
  | ServerFrame.confirmActions actions awaiting =>
    handleConfirmActions s actions (awaiting.getD true)
  | ServerFrame.toolExecuted actionId success message =>
    updateToolStatus s actionId
      (if success then ToolStatus.success else ToolStatus.failed) (some message)
  | ServerFrame.done convId summary =>
    let s1 := { s with isLoading := false, conversationId := some convId }
    let s2 :=
      if s1.streamingContent != "" || s1.currentRoundTools.length > 0 then
        { s1 with messages := s1.messages ++
            [mkAssistantSnapshot s1.streamingContent s1.currentRoundTools] }
      else s1
    let s3 := match summary with
              | some st => { s2 with executionStats := some st }
              | none => s2
    { s3 with
      streamingContent := ""
      currentRoundTools := []
      pendingConfirm := none }
  | ServerFrame.error err recoverable =>
    let s1 := { s with lastError := some err }
    if recoverable then s1 else { s1 with isLoading := false }
  | ServerFrame.pong => s
  | ServerFrame.roundStart => s

/-- sendMessage from the source: append the frame to the wire and
report true when the socket is open, otherwise change nothing and
report false (the source logs and returns false, it never throws). -/
def sendMessage (s : GMState) (f : ClientFrame) : GMState × Bool :=
  if s.wsOpen then ({ s with sentFrames := s.sentFrames ++ [f] }, true)
  else (s, false)

/-- JS String.prototype.trim: strip leading and trailing whitespace.
Written structurally over the character list so that it is
kernel-computable (String.trim of core Lean is extensionally the same
but is defined by well-founded recursion the kernel cannot unfold). -/
def jsTrim (s : String) : String :=
  String.mk
    (((s.data.dropWhile Char.isWhitespace).reverse.dropWhile
      Char.isWhitespace).reverse)

/-- sendUserMessage from the source: guard on blank text with no
images, optimistically append the user message, reset the ephemeral
round state (tool list, streaming buffer, loading, error, stats; the
source does not touch pendingConfirm here), then send the frame. -/
def sendUserMessage (s : GMState) (message : String)
    (images : Option (List String)) (enableWebSearch : Option Bool) : GMState :=
  if jsTrim message == "" &&
      (match images with | none => true | some l => l.length == 0) then s
  else
    let userMsg : GMMessage :=
      { role := Role.user, content := message, tools := none, actions := none,
        images := images }
    let s1 := { s with messages := s.messages ++ [userMsg] }
    let s2 := { s1 with
      isLoading := true
      streamingContent := ""
      currentRoundTools := []
      lastError := none
      executionStats := none }
    (sendMessage s2
      (ClientFrame.userMessage message s2.conversationId images
        enableWebSearch)).1

/-- sendConfirmResponse from the source: refuse unless an
awaiting-confirmation request is active; apply the approved and
rejected statuses; snapshot the round into an assistant message when
it has content; reset the round and clear the confirmation; send the
decision frame. -/
def sendConfirmResponse (s : GMState) (approved rejected : List String) :
    GMState × Bool :=
  if !(match s.pendingConfirm with
       | some c => c.awaitingConfirmation
       | none => false) then (s, false)
  else
    let s1 := updateToolStatuses s approved rejected none
    let s2 :=
      if s1.streamingContent != "" || s1.currentRoundTools.length > 0 then
        { s1 with messages := s1.messages ++
            [mkAssistantSnapshot s1.streamingContent s1.currentRoundTools] }
      else s1
    let s3 := { s2 with
      streamingContent := ""
      currentRoundTools := []
      pendingConfirm := none
      isLoading := true }
    sendMessage s3 (ClientFrame.confirmResponse approved rejected)

/-- approveAction from the source. -/
def approveAction (s : GMState) (actionId : String) : GMState :=
  updateToolStatus s actionId ToolStatus.approved none

/-- rejectAction from the source. -/
def rejectAction (s : GMState) (actionId : String) : GMState :=
  updateToolStatus s actionId ToolStatus.rejected none

/-- markActionsApplied from the source. -/
def markActionsApplied (s : GMState) (actionIds : List String) : GMState :=
  actionIds.foldl (fun acc i => updateToolStatus acc i ToolStatus.applied none) s

/-- markActionsFailed from the source. -/
def markActionsFailed (s : GMState) (actionIds : List String) : GMState :=
  actionIds.foldl (fun acc i => updateToolStatus acc i ToolStatus.failed none) s

/-- confirmAll from the source: batch-approve every id currently listed
in the active confirmation request. -/
def confirmAll (s : GMState) : GMState :=
  match s.pendingConfirm with
  | some c => updateToolStatuses s (c.tools.map (fun t => t.id)) [] none
  | none => s

/-- rejectAll from the source: batch-reject every id currently listed
in the active confirmation request. -/
def rejectAll (s : GMState) : GMState :=
  match s.pendingConfirm with
  | some c => updateToolStatuses s [] (c.tools.map (fun t => t.id)) none
  | none => s

/-- cancelTask from the source. -/
def cancelTask (s : GMState) : GMState :=
  let s1 := (sendMessage s ClientFrame.cancel).1
  { s1 with isLoading := false, pendingConfirm := none }

/-- clearConversation from the source. -/
def clearConversation (s : GMState) : GMState :=
  { s with
    messages := []
    conversationId := none
    streamingContent := ""
    currentRoundTools := []
    pendingConfirm := none
    lastError := none
    executionStats := none }

/-- loadMessages from the source. -/
def loadMessages (s : GMState) (history : List GMMessage)
    (convId : Option String) : GMState :=
  let s1 := { s with messages := history }
  if optTruthy convId then { s1 with conversationId := convId } else s1

/-- clearPendingConfirm from the source. -/
def clearPendingConfirm (s : GMState) : GMState :=
  { s with pendingConfirm := none }

/-- RECONNECT_DELAY_BASE from the source. -/
def RECONNECT_DELAY_BASE : Nat := 1000

/-- MAX_RECONNECT_ATTEMPTS from the source. -/
def MAX_RECONNECT_ATTEMPTS : Nat := 5

/-- scheduleReconnect from the source: at the cap, surface the
manual-reconnect error and schedule nothing; below it, arm the timer
with base times two to the attempt count and bump the counter. -/
def scheduleReconnect (s : GMState) : GMState :=
  if s.reconnectAttempts ≥ MAX_RECONNECT_ATTEMPTS then
    { s with lastError := some "连接失败，请手动重连" }
  else
    { s with
      reconnectTimer :=
        some (RECONNECT_DELAY_BASE * 2 ^ s.reconnectAttempts)
      reconnectAttempts := s.reconnectAttempts + 1 }

/-- The ws.onopen handler: connected, reset the attempt counter. -/
def handleOpen (s : GMState) : GMState :=
  { s with
    wsOpen := true
    closedSinceOpen := false
    connectionStatus := ConnectionStatus.connected
    reconnectAttempts := 0 }

/-- The ws.onclose handler: drop the socket, discard any pending
confirmation, and reconnect automatically unless the close was normal
(1000) or navigating-away (1001). -/
def handleClose (s : GMState) (code : Nat) : GMState :=
  let s1 := { s with
    wsOpen := false
    closedSinceOpen := true
    connectionStatus := ConnectionStatus.disconnected
    pendingConfirm := none }
  if code != 1000 && code != 1001 then scheduleReconnect s1 else s1

/-- The ws.onerror handler. -/
def handleWsError (s : GMState) : GMState :=
  { s with
    connectionStatus := ConnectionStatus.error
    lastError := some "连接失败" }

/-- connect from the source: no-op when already open, else clear any
reconnect timer and start connecting (the open or error outcome arrives
later as its own event). -/
def connectAction (s : GMState) : GMState :=
  if s.wsOpen then s
  else
    { s with
      reconnectTimer := none
      connectionStatus := ConnectionStatus.connecting
      lastError := none }

/-- disconnect from the source: deliberately close the socket (the
close event on the old socket then fires as its own event). -/
def disconnectAction (s : GMState) : GMState :=
  { s with
    wsOpen := false
    connectionStatus := ConnectionStatus.disconnected }

/-- Every stimulus the composable reacts to: socket lifecycle events,
decoded server frames, and each exported method. -/
inductive Event
  | wsOpen
  | wsClose (code : Nat)
  | wsError
  | frame (f : ServerFrame)
  | connectReq
  | disconnectReq
  | userSend (message : String) (images : Option (List String))
      (webSearch : Option Bool)
  | confirmResp (approved rejected : List String)
  | approveOne (id : String)
  | rejectOne (id : String)
  | markApplied (ids : List String)
  | markFailed (ids : List String)
  | confirmAllReq
  | rejectAllReq
  | cancelReq
  | clearConv
  | clearConfirm
  | loadHistory (history : List GMMessage) (convId : Option String)

/-- The client step relation: frames are only delivered on an open
socket, everything else is always available. -/
def step (s : GMState) (e : Event) : GMState :=
  match e with
  | Event.wsOpen => handleOpen s
  | Event.wsClose code => handleClose s code
  | Event.wsError => handleWsError s
  | Event.frame f => if s.wsOpen then handleMessage s f else s
  | Event.connectReq => connectAction s
  | Event.disconnectReq => disconnectAction s
  | Event.userSend m imgs w => sendUserMessage s m imgs w
  | Event.confirmResp a r => (sendConfirmResponse s a r).1
  | Event.approveOne i => approveAction s i
  | Event.rejectOne i => rejectAction s i
  | Event.markApplied ids => markActionsApplied s ids
  | Event.markFailed ids => markActionsFailed s ids
  | Event.confirmAllReq => confirmAll s
  | Event.rejectAllReq => rejectAll s
  | Event.cancelReq => cancelTask s
  | Event.clearConv => clearConversation s
  | Event.clearConfirm => clearPendingConfirm s
  | Event.loadHistory h c => loadMessages s h c

/-- The state the composable starts in. -/
def initState : GMState :=
  { wsOpen := false
    connectionStatus := ConnectionStatus.disconnected
    closedSinceOpen := false
    lastError := none
    conversationId := none
    messages := []
    isLoading := false
    streamingContent := ""
    currentRoundTools := []
    pendingConfirm := none
    executionStats := none
    reconnectAttempts := 0
    reconnectTimer := none
    nextFreshId := 0
    sentFrames := [] }

/-- States reachable from the initial state by the step relation. -/
inductive Reachable : GMState → Prop
  | base : Reachable initState
  | next (s : GMState) (e : Event) : Reachable s → Reachable (step s e)

/- ===== generic lemmas about updateFirst and setStatus ===== -/

theorem updateFirst_length {α : Type} (p : α → Bool) (f : α → α) (l : List α) :
    (updateFirst p f l).length = l.length := by
  induction l with
  | nil => rfl
  | cons x xs ih =>
    simp only [updateFirst]
    split <;> simp [ih]

theorem updateFirst_cons_pos {α : Type} (p : α → Bool) (f : α → α) (x : α)
    (xs : List α) (h : p x = true) :
    updateFirst p f (x :: xs) = f x :: xs := by
  simp [updateFirst, h]

theorem updateFirst_cons_neg {α : Type} (p : α → Bool) (f : α → α) (x : α)
    (xs : List α) (h : p x = false) :
    updateFirst p f (x :: xs) = x :: updateFirst p f xs := by
  simp [updateFirst, h]

theorem updateFirst_map {α β : Type} (g : α → β) (p : α → Bool) (f : α → α)
    (h : ∀ x, g (f x) = g x) (l : List α) :
    (updateFirst p f l).map g = l.map g := by
  induction l with
  | nil => rfl
  | cons x xs ih =>
    simp only [updateFirst]
    split <;> simp [ih, h]

theorem updateFirst_filter {α : Type} (p q : α → Bool) (f : α → α)
    (h1 : ∀ x, p x = true → q x = false) (h2 : ∀ x, q (f x) = q x)
    (l : List α) :
    (updateFirst p f l).filter q = l.filter q := by
  induction l with
  | nil => rfl
  | cons x xs ih =>
    simp only [updateFirst]
    by_cases hp : p x = true
    · simp only [hp, if_true]
      have hq : q x = false := h1 x hp
      simp [List.filter, h2, hq]
    · have hp2 : p x = false := by
        cases hpx : p x
        · rfl
        · exact absurd hpx hp
      simp only [hp2, Bool.false_eq_true, if_false]
      simp [List.filter, ih]

theorem updateFirst_idem {α : Type} (p : α → Bool) (f : α → α)
    (hp : ∀ x, p (f x) = p x) (hf : ∀ x, f (f x) = f x) (l : List α) :
    updateFirst p f (updateFirst p f l) = updateFirst p f l := by
  induction l with
  | nil => rfl
  | cons x xs ih =>
    by_cases hx : p x = true
    · rw [updateFirst_cons_pos p f x xs hx,
        updateFirst_cons_pos p f (f x) xs (by rw [hp, hx]), hf]
    · have hx2 : p x = false := by
        cases hpx : p x
        · rfl
        · exact absurd hpx hx
      rw [updateFirst_cons_neg p f x xs hx2,
        updateFirst_cons_neg p f x _ hx2, ih]

theorem updateFirst_comm {α : Type} (p q : α → Bool) (f : α → α)
    (hp : ∀ x, p (f x) = p x) (hq : ∀ x, q (f x) = q x) (hf : ∀ x, f (f x) = f x)
    (l : List α) :
    updateFirst p f (updateFirst q f l) = updateFirst q f (updateFirst p f l) := by
  induction l with
  | nil => rfl
  | cons x xs ih =>
    by_cases hpx : p x = true
    · by_cases hqx : q x = true
      · rw [updateFirst_cons_pos q f x xs hqx,
          updateFirst_cons_pos p f (f x) xs (by rw [hp, hpx]),
          updateFirst_cons_pos p f x xs hpx,
          updateFirst_cons_pos q f (f x) xs (by rw [hq, hqx]), hf]
      · have hqx2 : q x = false := by
          cases h : q x
          · rfl
          · exact absurd h hqx
        rw [updateFirst_cons_neg q f x xs hqx2,
          updateFirst_cons_pos p f x _ hpx,
          updateFirst_cons_pos p f x xs hpx,
          updateFirst_cons_neg q f (f x) xs (by rw [hq, hqx2])]
    · have hpx2 : p x = false := by
        cases h : p x
        · rfl
        · exact absurd h hpx
      by_cases hqx : q x = true
      · rw [updateFirst_cons_pos q f x xs hqx,
          updateFirst_cons_neg p f (f x) xs (by rw [hp, hpx2]),
          updateFirst_cons_neg p f x xs hpx2,
          updateFirst_cons_pos q f x _ hqx]
      · have hqx2 : q x = false := by
          cases h : q x
          · rfl
          · exact absurd h hqx
        rw [updateFirst_cons_neg q f x xs hqx2,
          updateFirst_cons_neg p f x _ hpx2,
          updateFirst_cons_neg p f x xs hpx2,
          updateFirst_cons_neg q f x _ hqx2, ih]

theorem setStatus_id (st : ToolStatus) (m : Option String) (t : ToolExecution) :
    (setStatus st m t).id = t.id := by
  cases m <;> rfl

theorem setStatus_action_id (st : ToolStatus) (m : Option String)
    (t : ToolExecution) : (setStatus st m t).action_id = t.action_id := by
  cases m <;> rfl

theorem setStatus_status (st : ToolStatus) (m : Option String)
    (t : ToolExecution) : (setStatus st m t).status = st := by
  cases m <;> rfl

theorem setStatus_idem (st : ToolStatus) (m : Option String) (t : ToolExecution) :
    setStatus st m (setStatus st m t) = setStatus st m t := by
  cases m <;> rfl

theorem setStatus_none_setStatus (st1 st2 : ToolStatus) (t : ToolExecution) :
    setStatus st2 none (setStatus st1 none t) = setStatus st2 none t := rfl

theorem idPred_setStatus (toolId : String) (st : ToolStatus) (m : Option String) :
    ∀ t : ToolExecution,
      ((setStatus st m t).id == toolId) = (t.id == toolId) := by
  intro t
  rw [setStatus_id]

theorem idActionPred_setStatus (toolId : String) (st : ToolStatus)
    (m : Option String) :
    ∀ t : ToolExecution,
      ((setStatus st m t).id == toolId || (setStatus st m t).action_id == some toolId)
        = (t.id == toolId || t.action_id == some toolId) := by
  intro t
  rw [setStatus_id, setStatus_action_id]

/- ===== idempotency of the single status update (claim C4) ===== -/

theorem updateToolInConfirm_idem (toolId : String) (st : ToolStatus)
    (m : Option String) (c : ConfirmState) :
    updateToolInConfirm toolId st m (updateToolInConfirm toolId st m c) =
      updateToolInConfirm toolId st m c := by
  cases c with
  | mk tools awaiting =>
    simp [updateToolInConfirm,
      updateFirst_idem (fun t : ToolExecution => t.id == toolId) (setStatus st m)
        (idPred_setStatus toolId st m) (setStatus_idem st m)]

theorem updateToolInMessage_idem (toolId : String) (st : ToolStatus)
    (m : Option String) (msg : GMMessage) :
    updateToolInMessage toolId st m (updateToolInMessage toolId st m msg) =
      updateToolInMessage toolId st m msg := by
  have h1 := updateFirst_idem (fun t : ToolExecution => t.id == toolId)
    (setStatus st m) (idPred_setStatus toolId st m) (setStatus_idem st m)
  have h2 := updateFirst_idem
    (fun t : ToolExecution => t.id == toolId || t.action_id == some toolId)
    (setStatus st m) (idActionPred_setStatus toolId st m) (setStatus_idem st m)
  cases msg with
  | mk role content tools actions images =>
    cases tools <;> cases actions <;> simp [updateToolInMessage, h1, h2]

theorem updateToolStatus_idem (s : GMState) (toolId : String) (st : ToolStatus)
    (m : Option String) :
    updateToolStatus (updateToolStatus s toolId st m) toolId st m =
      updateToolStatus s toolId st m := by
  have h1 := updateFirst_idem (fun t : ToolExecution => t.id == toolId)
    (setStatus st m) (idPred_setStatus toolId st m) (setStatus_idem st m)
  cases s with
  | mk wsOpen cs cso le cid msgs il sc crt pc es ra rt nfi sf =>
    cases pc <;>
      simp [updateToolStatus, h1, updateToolInConfirm_idem, List.map_map,
        Function.comp, updateToolInMessage_idem]

/-- C4: calling updateToolStatus twice with the same id, status (and
message) produces exactly the same state, hence the same three views
(current round list, active confirmation request, finalized history),
as calling it once. -/
theorem C4_updateToolStatus_idempotent (s : GMState) (toolId : String)
    (st : ToolStatus) (msg : Option String) :
    updateToolStatus (updateToolStatus s toolId st msg) toolId st msg =
      updateToolStatus s toolId st msg :=
  updateToolStatus_idem s toolId st msg

/- ===== projection facts about the status-update folds ===== -/

theorem foldl_upd_fields (st : ToolStatus) (ids : List String) (s : GMState) :
    (ids.foldl (fun acc i => updateToolStatus acc i st none) s).wsOpen = s.wsOpen ∧
    (ids.foldl (fun acc i => updateToolStatus acc i st none) s).closedSinceOpen
      = s.closedSinceOpen ∧
    (ids.foldl (fun acc i => updateToolStatus acc i st none) s).sentFrames
      = s.sentFrames ∧
    (ids.foldl (fun acc i => updateToolStatus acc i st none) s).streamingContent
      = s.streamingContent ∧
    (ids.foldl (fun acc i => updateToolStatus acc i st none) s).isLoading
      = s.isLoading ∧
    (ids.foldl (fun acc i => updateToolStatus acc i st none) s).conversationId
      = s.conversationId ∧
    (ids.foldl (fun acc i => updateToolStatus acc i st none) s).lastError
      = s.lastError ∧
    (ids.foldl (fun acc i => updateToolStatus acc i st none) s).executionStats
      = s.executionStats ∧
    (ids.foldl (fun acc i => updateToolStatus acc i st none) s).connectionStatus
      = s.connectionStatus ∧
    (ids.foldl (fun acc i => updateToolStatus acc i st none) s).reconnectAttempts
      = s.reconnectAttempts ∧
    (ids.foldl (fun acc i => updateToolStatus acc i st none) s).reconnectTimer
      = s.reconnectTimer ∧
    (ids.foldl (fun acc i => updateToolStatus acc i st none) s).nextFreshId
      = s.nextFreshId := by
  induction ids generalizing s with
  | nil => exact ⟨rfl, rfl, rfl, rfl, rfl, rfl, rfl, rfl, rfl, rfl, rfl, rfl⟩
  | cons i is ih => exact ih (updateToolStatus s i st none)

theorem foldl_upd_pc_none (st : ToolStatus) (ids : List String) (s : GMState)
    (h : s.pendingConfirm = none) :
    (ids.foldl (fun acc i => updateToolStatus acc i st none) s).pendingConfirm
      = none := by
  induction ids generalizing s with
  | nil => exact h
  | cons i is ih =>
    exact ih (updateToolStatus s i st none) (by simp [updateToolStatus, h])

theorem updateToolStatuses_eq_folds (s : GMState) (A R : List String)
    (t : Option (ToolStatus × ToolStatus)) :
    updateToolStatuses s A R t =
      R.foldl (fun acc i =>
          updateToolStatus acc i ((t.map Prod.snd).getD ToolStatus.rejected) none)
        (A.foldl (fun acc i =>
          updateToolStatus acc i ((t.map Prod.fst).getD ToolStatus.approved) none)
          s) := rfl

theorem updateToolStatuses_sentFrames (s : GMState) (A R : List String)
    (t : Option (ToolStatus × ToolStatus)) :
    (updateToolStatuses s A R t).sentFrames = s.sentFrames := by
  rw [updateToolStatuses_eq_folds]
  rw [(foldl_upd_fields _ R _).2.2.1, (foldl_upd_fields _ A s).2.2.1]

theorem updateToolStatuses_wsOpen (s : GMState) (A R : List String)
    (t : Option (ToolStatus × ToolStatus)) :
    (updateToolStatuses s A R t).wsOpen = s.wsOpen := by
  rw [updateToolStatuses_eq_folds]
  rw [(foldl_upd_fields _ R _).1, (foldl_upd_fields _ A s).1]

theorem updateToolStatuses_streamingContent (s : GMState) (A R : List String)
    (t : Option (ToolStatus × ToolStatus)) :
    (updateToolStatuses s A R t).streamingContent = s.streamingContent := by
  rw [updateToolStatuses_eq_folds]
  rw [(foldl_upd_fields _ R _).2.2.2.1, (foldl_upd_fields _ A s).2.2.2.1]

/- ===== claim C6: reconnect backoff ===== -/

/-- C6: on an abnormal close (code neither 1000 nor 1001), the n-th
scheduled reconnection attempt is armed with delay exactly
base times 2 to the n (base 1000, n the current attempt count starting
at 0) and the attempt counter is incremented; once the counter has
reached the maximum of 5 no attempt is scheduled and the terminal
manual-reconnect error is surfaced instead; a successful open resets
the counter to zero. -/
theorem C6_reconnect_backoff (s : GMState) (code : Nat)
    (hcode : code ≠ 1000 ∧ code ≠ 1001) :
    (s.reconnectAttempts < MAX_RECONNECT_ATTEMPTS →
      (handleClose s code).reconnectTimer =
        some (RECONNECT_DELAY_BASE * 2 ^ s.reconnectAttempts) ∧
      (handleClose s code).reconnectAttempts = s.reconnectAttempts + 1) ∧
    (MAX_RECONNECT_ATTEMPTS ≤ s.reconnectAttempts →
      (handleClose s code).reconnectTimer = s.reconnectTimer ∧
      (handleClose s code).reconnectAttempts = s.reconnectAttempts ∧
      (handleClose s code).lastError = some "连接失败，请手动重连") ∧
    (handleOpen s).reconnectAttempts = 0 := by
  have hb : (code != 1000 && code != 1001) = true := by
    simp [hcode.1, hcode.2]
  refine ⟨?_, ?_, rfl⟩
  · intro hlt
    have hnot : ¬ MAX_RECONNECT_ATTEMPTS ≤ s.reconnectAttempts :=
      Nat.not_le.mpr hlt
    simp [handleClose, hb, scheduleReconnect, hnot]
  · intro hge
    simp [handleClose, hb, scheduleReconnect, hge]

/-- Witness for C6 at the initial state and close code 1006. -/
theorem C6_reconnect_backoff_witness :
    (1006 ≠ 1000 ∧ 1006 ≠ 1001) ∧
    initState.reconnectAttempts < MAX_RECONNECT_ATTEMPTS ∧
    (handleClose initState 1006).reconnectTimer =
      some (RECONNECT_DELAY_BASE * 2 ^ initState.reconnectAttempts) ∧
    (handleClose initState 1006).reconnectAttempts =
      initState.reconnectAttempts + 1 ∧
    (handleOpen initState).reconnectAttempts = 0 := by
  have h := C6_reconnect_backoff initState 1006 ⟨by decide, by decide⟩
  exact ⟨⟨by decide, by decide⟩, by decide, (h.1 (by decide)).1,
    (h.1 (by decide)).2, h.2.2⟩

/- ===== claim C10: sends while the socket is not open ===== -/

/-- C10: with the socket not open, sendMessage changes nothing and
reports false (it never throws: it is a total function); the local
state changes surrounding the sends still take effect: sendUserMessage
still appends the optimistic user message and sets loading,
cancelTask still stops loading and clears the confirmation, and
sendConfirmResponse reports false while leaving the wire untouched. -/
theorem C10_closed_sends (s : GMState) (h : s.wsOpen = false) :
    (∀ f, sendMessage s f = (s, false)) ∧
    (∀ msg imgs w, jsTrim msg ≠ "" →
      (sendUserMessage s msg imgs w).sentFrames = s.sentFrames ∧
      (sendUserMessage s msg imgs w).messages = s.messages ++
        [{ role := Role.user, content := msg, tools := none, actions := none,
           images := imgs }] ∧
      (sendUserMessage s msg imgs w).isLoading = true) ∧
    ((cancelTask s).sentFrames = s.sentFrames ∧
      (cancelTask s).isLoading = false ∧
      (cancelTask s).pendingConfirm = none) ∧
    (∀ a r, (sendConfirmResponse s a r).2 = false ∧
      (sendConfirmResponse s a r).1.sentFrames = s.sentFrames) := by
  refine ⟨?_, ?_, ?_, ?_⟩
  · intro f
    simp [sendMessage, h]
  · intro msg imgs w hm
    have hg : (jsTrim msg == "") = false := by
      simp [hm]
    simp [sendUserMessage, hg, sendMessage, h]
  · simp [cancelTask, sendMessage, h]
  · intro a r
    cases hpc : s.pendingConfirm with
    | none => simp [sendConfirmResponse, hpc]
    | some c =>
      cases hac : c.awaitingConfirmation with
      | false => simp [sendConfirmResponse, hpc, hac]
      | true =>
        have hw : (updateToolStatuses s a r none).wsOpen = false := by
          rw [updateToolStatuses_wsOpen]; exact h
        have hsf := updateToolStatuses_sentFrames s a r none
        simp only [sendConfirmResponse, hpc, hac, Bool.not_true,
          Bool.false_eq_true, if_false]
        split <;> simp [sendMessage, hw, hsf]

/-- Witness for C10 at the initial state (socket not open). -/
theorem C10_closed_sends_witness :
    initState.wsOpen = false ∧
    sendMessage initState ClientFrame.cancel = (initState, false) ∧
    (cancelTask initState).isLoading = false ∧
    (sendConfirmResponse initState [] []).2 = false := by
  have h := C10_closed_sends initState rfl
  exact ⟨rfl, h.1 ClientFrame.cancel, (h.2.2.1).2.1, (h.2.2.2 [] []).1⟩

/- ===== claim C8: sendUserMessage round reset ===== -/

/-- A pending mutating tool used by concrete counterexamples. -/
def tC8 : ToolExecution :=
  { id := "a1", action_id := some "a1", tool_name := "update_character",
    params := [("name", "X")], status := ToolStatus.pending,
    requires_confirmation := true, preview := some "p", message := none,
    is_dangerous := none }

/-- An active confirmation request holding tC8. -/
def confirmC8 : ConfirmState := { tools := [tC8], awaitingConfirmation := true }

/-- A connected state with an active confirmation request. -/
def stateC8 : GMState :=
  { initState with
    wsOpen := true
    connectionStatus := ConnectionStatus.connected
    pendingConfirm := some confirmC8
    currentRoundTools := [tC8] }

/-- C8 counterexample: submitting a nonempty user turn does NOT null
the prior ConfirmationRequest; sendUserMessage leaves pendingConfirm
untouched. -/
theorem C8_counterexample :
    stateC8.pendingConfirm = some confirmC8 ∧
    (sendUserMessage stateC8 "hello" none none).pendingConfirm =
      some confirmC8 ∧
    some confirmC8 ≠ (none : Option ConfirmState) := by
  refine ⟨rfl, by decide, by simp⟩

/-- C8 amended: for a nonempty input, sendUserMessage appends the user
message, resets tool list, streaming buffer, stats, error and sets
loading, leaves the prior ConfirmationRequest unchanged (the source
does not clear pendingConfirm here), and, when the socket is open,
sends the user_message frame from the already-reset state. -/
theorem C8_userMessage_resets (s : GMState) (msg : String)
    (imgs : Option (List String)) (w : Option Bool) (h : jsTrim msg ≠ "") :
    (sendUserMessage s msg imgs w).currentRoundTools = [] ∧
    (sendUserMessage s msg imgs w).streamingContent = "" ∧
    (sendUserMessage s msg imgs w).executionStats = none ∧
    (sendUserMessage s msg imgs w).lastError = none ∧
    (sendUserMessage s msg imgs w).isLoading = true ∧
    (sendUserMessage s msg imgs w).pendingConfirm = s.pendingConfirm ∧
    (sendUserMessage s msg imgs w).messages = s.messages ++
      [{ role := Role.user, content := msg, tools := none, actions := none,
         images := imgs }] ∧
    (s.wsOpen = true →
      (sendUserMessage s msg imgs w).sentFrames = s.sentFrames ++
        [ClientFrame.userMessage msg s.conversationId imgs w]) := by
  have hg : (jsTrim msg == "") = false := by simp [h]
  cases hw : s.wsOpen with
  | true => simp [sendUserMessage, hg, sendMessage, hw]
  | false => simp [sendUserMessage, hg, sendMessage, hw]

/-- Witness for C8 amended at a concrete state. -/
theorem C8_userMessage_resets_witness :
    jsTrim "hi" ≠ "" ∧
    (sendUserMessage stateC8 "hi" none none).pendingConfirm =
      stateC8.pendingConfirm ∧
    (sendUserMessage stateC8 "hi" none none).currentRoundTools = [] := by
  have h := C8_userMessage_resets stateC8 "hi" none none (by decide)
  exact ⟨by decide, h.2.2.2.2.2.1, h.1⟩

/- ===== claim C2: undecided ids at submission time ===== -/

/-- A pending dangerous tool for the C2 counterexample. -/
def tC2 : ToolExecution :=
  { id := "b1", action_id := some "b1", tool_name := "delete_outline",
    params := [], status := ToolStatus.pending,
    requires_confirmation := true, preview := some "d", message := none,
    is_dangerous := some true }

/-- A connected state whose active confirmation request holds tC2. -/
def stateC2 : GMState :=
  { initState with
    wsOpen := true
    connectionStatus := ConnectionStatus.connected
    pendingConfirm := some { tools := [tC2], awaitingConfirmation := true }
    currentRoundTools := [tC2] }

/-- C2 counterexample: submitting a decision with tC2 in neither the
approved nor the rejected list leaves it pending (not rejected) in the
finalized message of the resulting state. -/
theorem C2_counterexample :
    ((sendConfirmResponse stateC2 [] []).1.messages.getLast?).map
        (fun m => (m.tools.getD []).map (fun t => t.status)) =
      some [ToolStatus.pending] ∧
    ToolStatus.pending ≠ ToolStatus.rejected := by
  exact ⟨by decide, by decide⟩

theorem foldl_upd_crt_length (st : ToolStatus) (ids : List String) (s : GMState) :
    (ids.foldl (fun acc i => updateToolStatus acc i st none) s).currentRoundTools.length
      = s.currentRoundTools.length := by
  induction ids generalizing s with
  | nil => rfl
  | cons i is ih =>
    exact (ih (updateToolStatus s i st none)).trans (updateFirst_length _ _ _)

theorem updateToolStatuses_crt_length (s : GMState) (A R : List String)
    (t : Option (ToolStatus × ToolStatus)) :
    (updateToolStatuses s A R t).currentRoundTools.length
      = s.currentRoundTools.length := by
  rw [updateToolStatuses_eq_folds]
  rw [foldl_upd_crt_length, foldl_upd_crt_length]

theorem foldl_upd_crt_filter (st : ToolStatus) (ids : List String) (s : GMState)
    (q : ToolExecution → Bool) (hq : ∀ t, q (setStatus st none t) = q t)
    (hmem : ∀ i ∈ ids, ∀ t : ToolExecution, (t.id == i) = true → q t = false) :
    (ids.foldl (fun acc i => updateToolStatus acc i st none) s).currentRoundTools.filter q
      = s.currentRoundTools.filter q := by
  induction ids generalizing s with
  | nil => rfl
  | cons i is ih =>
    have step1 : (updateToolStatus s i st none).currentRoundTools.filter q =
        s.currentRoundTools.filter q :=
      updateFirst_filter (fun t : ToolExecution => t.id == i) q (setStatus st none)
        (fun x hx => hmem i (List.mem_cons_self i is) x hx) hq s.currentRoundTools
    exact ((ih (updateToolStatus s i st none)
      (fun j hj => hmem j (List.mem_cons_of_mem i hj)))).trans step1

/-- C2 amended: a tool whose id is in neither the approved nor the
rejected list is carried into the finalized assistant message with its
status byte-identical to what it was before submission (a pending tool
stays pending); the code does not implicitly reject undecided ids, nor
does it apply them. -/
theorem C2_undecided_retain_status (s : GMState) (approved rejected : List String)
    (c : ConfirmState) (hc : s.pendingConfirm = some c)
    (ha : c.awaitingConfirmation = true)
    (hne : 0 < s.currentRoundTools.length) :
    ∃ ts : List ToolExecution,
      ((sendConfirmResponse s approved rejected).1.messages).getLast? =
        some (mkAssistantSnapshot s.streamingContent ts) ∧
      ts.length = s.currentRoundTools.length ∧
      ts.filter (fun t => !(approved.contains t.id) && !(rejected.contains t.id))
        = s.currentRoundTools.filter
            (fun t => !(approved.contains t.id) && !(rejected.contains t.id)) := by
  have hguard : (match s.pendingConfirm with
      | some c => c.awaitingConfirmation
      | none => false) = true := by
    rw [hc]; exact ha
  refine ⟨(updateToolStatuses s approved rejected none).currentRoundTools,
    ?_, updateToolStatuses_crt_length s approved rejected none, ?_⟩
  · have hlen : 0 <
        (updateToolStatuses s approved rejected none).currentRoundTools.length := by
      rw [updateToolStatuses_crt_length]; exact hne
    have hcond : ((updateToolStatuses s approved rejected none).streamingContent != ""
        || decide (0 < (updateToolStatuses s approved rejected none).currentRoundTools.length))
        = true := by
      rw [decide_eq_true hlen]
      exact Bool.or_true _
    simp only [sendConfirmResponse, hguard, Bool.not_true, Bool.false_eq_true,
      if_false, hcond, if_true, gt_iff_lt]
    rw [updateToolStatuses_streamingContent]
    cases hw : (updateToolStatuses s approved rejected none).wsOpen <;>
      simp [sendMessage]
  · rw [updateToolStatuses_eq_folds]
    have hq : ∀ (st : ToolStatus) (t : ToolExecution),
        (fun t : ToolExecution =>
          !(approved.contains t.id) && !(rejected.contains t.id))
            (setStatus st none t) =
        (fun t : ToolExecution =>
          !(approved.contains t.id) && !(rejected.contains t.id)) t := by
      intro st t
      simp [setStatus_id]
    rw [foldl_upd_crt_filter _ rejected _ _ (hq _) ?hr,
      foldl_upd_crt_filter _ approved _ _ (hq _) ?ha2]
    case hr =>
      intro i hi t ht
      have hti : t.id = i := eq_of_beq ht
      have hcon : rejected.contains t.id = true := by
        rw [hti]
        exact List.elem_eq_true_of_mem hi
      show (!(approved.contains t.id) && !(rejected.contains t.id)) = false
      rw [hcon]
      simp
    case ha2 =>
      intro i hi t ht
      have hti : t.id = i := eq_of_beq ht
      have hcon : approved.contains t.id = true := by
        rw [hti]
        exact List.elem_eq_true_of_mem hi
      show (!(approved.contains t.id) && !(rejected.contains t.id)) = false
      rw [hcon]
      simp

/- ===== claim C5: matching server events to ledger entries ===== -/

/-- The first matching element of find? splits the list into a failing
prefix, the match, and a suffix. -/
theorem find?_first_split {α : Type} (p : α → Bool) (l : List α) (a : α)
    (h : l.find? p = some a) :
    ∃ l1 l2, l = l1 ++ a :: l2 ∧ ∀ x ∈ l1, p x = false := by
  induction l with
  | nil => cases h
  | cons x xs ih =>
    by_cases hx : p x = true
    · rw [List.find?_cons_of_pos _ hx] at h
      obtain rfl := Option.some.inj h
      exact ⟨[], xs, rfl, by intro y hy; cases hy⟩
    · have hx2 : p x = false := by
        cases hpx : p x
        · rfl
        · exact absurd hpx hx
      rw [List.find?_cons_of_neg _ (by simp [hx2])] at h
      obtain ⟨l1, l2, heq, hall⟩ := ih h
      refine ⟨x :: l1, l2, by rw [heq]; rfl, ?_⟩
      intro y hy
      rcases List.mem_cons.mp hy with hy1 | hy2
      · rw [hy1]; exact hx2
      · exact hall y hy2

/-- Two executing read-only tools with the same name, used to separate
findTool from the most-recent-match reading of the spec. -/
def tC5a : ToolExecution :=
  { id := "c1", action_id := none, tool_name := "search_notes",
    params := [("q", "a")], status := ToolStatus.executing,
    requires_confirmation := false, preview := none, message := none,
    is_dangerous := none }

/-- Second executing tool with the same name as tC5a. -/
def tC5b : ToolExecution :=
  { id := "c2", action_id := none, tool_name := "search_notes",
    params := [("q", "b")], status := ToolStatus.executing,
    requires_confirmation := false, preview := none, message := none,
    is_dangerous := none }

/-- C5 counterexample: with two same-name executing entries and no
call id, findTool selects the FIRST (earliest) matching entry, not the
most recent one the claim describes. -/
theorem C5_counterexample :
    findTool [tC5a, tC5b] none (some "search_notes") = some tC5a ∧
    specFindByNameMostRecent [tC5a, tC5b] "search_notes" = some tC5b ∧
    tC5a ≠ tC5b := by
  exact ⟨by decide, by decide, by decide⟩

/-- C5 amended: when the event carries a (truthy) call identifier the
entry with exactly that id is selected and name-based matching is never
used; only without an identifier is name matching used, and then the
selected entry is the FIRST (earliest, not most recent) entry of the
round list with the same tool_name whose status is still executing. -/
theorem C5_findTool_matching (tools : List ToolExecution) :
    (∀ cid tn t, cid ≠ "" →
      findTool tools (some cid) tn = some t → t.id = cid) ∧
    (∀ cid tn, cid ≠ "" →
      findTool tools (some cid) tn = tools.find? (fun x => x.id == cid)) ∧
    (∀ n t, n ≠ "" → findTool tools none (some n) = some t →
      t.tool_name = n ∧ t.status = ToolStatus.executing ∧
      ∃ l1 l2, tools = l1 ++ t :: l2 ∧
        ∀ x ∈ l1, ¬(x.tool_name = n ∧ x.status = ToolStatus.executing)) := by
  refine ⟨?_, ?_, ?_⟩
  · intro cid tn t hcid hf
    have hb : optTruthy (some cid) = true := by simp [optTruthy, hcid]
    rw [findTool, findToolPred, if_pos hb] at hf
    have := List.find?_some hf
    exact eq_of_beq this
  · intro cid tn hcid
    have hb : optTruthy (some cid) = true := by simp [optTruthy, hcid]
    rw [findTool, findToolPred, if_pos hb]
    rfl
  · intro n t hn hf
    have hb1 : optTruthy (none : Option String) = false := rfl
    have hb2 : optTruthy (some n) = true := by simp [optTruthy, hn]
    rw [findTool, findToolPred, if_neg (by simp [hb1]), if_pos hb2] at hf
    have hp := List.find?_some hf
    have hname : t.tool_name = n := by
      have := (Bool.and_eq_true _ _).mp hp
      exact eq_of_beq this.1
    have hstat : t.status = ToolStatus.executing := by
      have := (Bool.and_eq_true _ _).mp hp
      exact eq_of_beq this.2
    obtain ⟨l1, l2, heq, hall⟩ := find?_first_split _ tools t hf
    refine ⟨hname, hstat, l1, l2, heq, ?_⟩
    intro x hx hcontra
    have := hall x hx
    rw [hcontra.1, hcontra.2] at this
    simp at this

/-- Witness for C5 amended at concrete inputs. -/
theorem C5_findTool_matching_witness :
    ("c1" : String) ≠ "" ∧ ("search_notes" : String) ≠ "" ∧
    findTool [tC5a, tC5b] (some "c1") (some "search_notes") =
      [tC5a, tC5b].find? (fun x => x.id == "c1") ∧
    (∃ l1 l2, [tC5a, tC5b] = l1 ++ tC5a :: l2 ∧
      ∀ x ∈ l1,
        ¬(x.tool_name = "search_notes" ∧ x.status = ToolStatus.executing)) := by
  have h := C5_findTool_matching [tC5a, tC5b]
  refine ⟨by decide, by decide,
    h.2.1 "c1" (some "search_notes") (by decide), ?_⟩
  exact (h.2.2 "search_notes" tC5a (by decide) (by decide)).2.2

/- ===== claim C3: batch helpers confirmAll and rejectAll ===== -/

theorem updateToolInConfirm_comm (i j : String) (st : ToolStatus)
    (c : ConfirmState) :
    updateToolInConfirm i st none (updateToolInConfirm j st none c) =
      updateToolInConfirm j st none (updateToolInConfirm i st none c) := by
  cases c with
  | mk tools awaiting =>
    simp only [updateToolInConfirm]
    rw [updateFirst_comm (fun t : ToolExecution => t.id == i)
      (fun t : ToolExecution => t.id == j) (setStatus st none)
      (idPred_setStatus i st none) (idPred_setStatus j st none)
      (setStatus_idem st none)]

theorem updateToolInMessage_comm (i j : String) (st : ToolStatus)
    (msg : GMMessage) :
    updateToolInMessage i st none (updateToolInMessage j st none msg) =
      updateToolInMessage j st none (updateToolInMessage i st none msg) := by
  have h1 := updateFirst_comm (fun t : ToolExecution => t.id == i)
    (fun t : ToolExecution => t.id == j) (setStatus st none)
    (idPred_setStatus i st none) (idPred_setStatus j st none)
    (setStatus_idem st none)
  have h2 := updateFirst_comm
    (fun t : ToolExecution => t.id == i || t.action_id == some i)
    (fun t : ToolExecution => t.id == j || t.action_id == some j)
    (setStatus st none)
    (idActionPred_setStatus i st none) (idActionPred_setStatus j st none)
    (setStatus_idem st none)
  cases msg with
  | mk role content tools actions images =>
    cases tools <;> cases actions <;> simp [updateToolInMessage, h1, h2]

theorem updateToolStatus_comm (s : GMState) (i j : String) (st : ToolStatus) :
    updateToolStatus (updateToolStatus s j st none) i st none =
      updateToolStatus (updateToolStatus s i st none) j st none := by
  have h1 := updateFirst_comm (fun t : ToolExecution => t.id == i)
    (fun t : ToolExecution => t.id == j) (setStatus st none)
    (idPred_setStatus i st none) (idPred_setStatus j st none)
    (setStatus_idem st none)
  cases s with
  | mk wsOpen cs cso le cid msgs il sc crt pc es ra rt nfi sf =>
    cases pc <;>
      simp [updateToolStatus, h1, updateToolInConfirm_comm, List.map_map,
        Function.comp, updateToolInMessage_comm]

/-- Proof-layer shorthand for the fold of single updates that
updateToolStatuses performs for one id list and one status. -/
def updAllIds (st : ToolStatus) (ids : List String) (s : GMState) : GMState :=
  ids.foldl (fun acc i => updateToolStatus acc i st none) s

theorem updAllIds_comm_single (st : ToolStatus) (ids : List String)
    (i : String) (s : GMState) :
    updateToolStatus (updAllIds st ids s) i st none =
      updAllIds st ids (updateToolStatus s i st none) := by
  induction ids generalizing s with
  | nil => rfl
  | cons j js ih =>
    show updateToolStatus (updAllIds st js (updateToolStatus s j st none)) i st none
      = updAllIds st js (updateToolStatus (updateToolStatus s i st none) j st none)
    rw [ih (updateToolStatus s j st none), updateToolStatus_comm]

theorem updAllIds_idem (st : ToolStatus) (ids : List String) (s : GMState) :
    updAllIds st ids (updAllIds st ids s) = updAllIds st ids s := by
  induction ids generalizing s with
  | nil => rfl
  | cons i is ih =>
    show updAllIds st is (updateToolStatus (updAllIds st is (updateToolStatus s i st none)) i st none)
      = updAllIds st is (updateToolStatus s i st none)
    rw [updAllIds_comm_single, updateToolStatus_idem]
    exact ih (updateToolStatus s i st none)

theorem updAllIds_pc (st : ToolStatus) (ids : List String) (s : GMState) :
    (updAllIds st ids s).pendingConfirm = s.pendingConfirm.map (fun c =>
      { c with tools := ids.foldl (fun l i =>
          updateFirst (fun t => t.id == i) (setStatus st none) l) c.tools }) := by
  induction ids generalizing s with
  | nil =>
    cases hpc : s.pendingConfirm with
    | none => simp [updAllIds, hpc]
    | some c => simp [updAllIds, hpc]
  | cons i is ih =>
    show (updAllIds st is (updateToolStatus s i st none)).pendingConfirm = _
    rw [ih (updateToolStatus s i st none)]
    show (s.pendingConfirm.map (updateToolInConfirm i st none)).map _ = _
    rw [Option.map_map]
    cases s.pendingConfirm with
    | none => rfl
    | some c => rfl

theorem foldl_updList_cons_skip (f : ToolExecution → ToolExecution)
    (ids : List String) (x : ToolExecution) (xs : List ToolExecution)
    (hx : ∀ i ∈ ids, (x.id == i) = false) :
    ids.foldl (fun l i => updateFirst (fun t => t.id == i) f l) (x :: xs) =
      x :: ids.foldl (fun l i => updateFirst (fun t => t.id == i) f l) xs := by
  induction ids generalizing xs with
  | nil => rfl
  | cons i is ih =>
    show is.foldl _ (updateFirst (fun t => t.id == i) f (x :: xs)) = _
    rw [updateFirst_cons_neg (fun t : ToolExecution => t.id == i) f x xs
      (hx i (List.mem_cons_self i is))]
    exact ih (updateFirst (fun t => t.id == i) f xs)
      (fun j hj => hx j (List.mem_cons_of_mem i hj))

theorem foldl_updList_self (f : ToolExecution → ToolExecution)
    (hid : ∀ x : ToolExecution, (f x).id = x.id) (ts : List ToolExecution)
    (hnd : (ts.map (fun t => t.id)).Nodup) :
    (ts.map (fun t => t.id)).foldl
        (fun l i => updateFirst (fun t => t.id == i) f l) ts = ts.map f := by
  induction ts with
  | nil => rfl
  | cons t rest ih =>
    have hnd2 : (rest.map (fun t => t.id)).Nodup := (List.nodup_cons.mp hnd).2
    have hnotin : t.id ∉ rest.map (fun t => t.id) := (List.nodup_cons.mp hnd).1
    show (rest.map (fun t => t.id)).foldl _
        (updateFirst (fun u => u.id == t.id) f (t :: rest)) = f t :: rest.map f
    rw [updateFirst_cons_pos _ _ _ _ (by simp)]
    rw [foldl_updList_cons_skip f _ (f t) rest ?hskip]
    · rw [ih hnd2]
    case hskip =>
      intro i hi
      have : t.id ≠ i := by
        intro he
        exact hnotin (he ▸ hi)
      rw [hid t]
      exact beq_eq_false_iff_ne.mpr this

theorem map_id_of_setStatus (st : ToolStatus) (ts : List ToolExecution) :
    (ts.map (setStatus st none)).map (fun t => t.id) = ts.map (fun t => t.id) := by
  rw [List.map_map]
  exact List.map_congr_left (fun t _ => setStatus_id st none t)

theorem map_setStatus_setStatus (st1 st2 : ToolStatus) (ts : List ToolExecution) :
    (ts.map (setStatus st1 none)).map (setStatus st2 none)
      = ts.map (setStatus st2 none) := by
  rw [List.map_map]
  exact List.map_congr_left (fun t _ => setStatus_none_setStatus st1 st2 t)

theorem confirmAll_eq (s : GMState) (c : ConfirmState)
    (hc : s.pendingConfirm = some c) :
    confirmAll s =
      updAllIds ToolStatus.approved (c.tools.map (fun t => t.id)) s := by
  rw [confirmAll, hc]
  rfl

theorem rejectAll_eq (s : GMState) (c : ConfirmState)
    (hc : s.pendingConfirm = some c) :
    rejectAll s =
      updAllIds ToolStatus.rejected (c.tools.map (fun t => t.id)) s := by
  rw [rejectAll, hc]
  rfl

theorem updAllIds_pc_self (st : ToolStatus) (s : GMState) (c : ConfirmState)
    (hc : s.pendingConfirm = some c)
    (hnd : (c.tools.map (fun t => t.id)).Nodup) :
    (updAllIds st (c.tools.map (fun t => t.id)) s).pendingConfirm =
      some { tools := c.tools.map (setStatus st none)
             awaitingConfirmation := c.awaitingConfirmation } := by
  rw [updAllIds_pc, hc]
  refine congrArg some ?_
  show ConfirmState.mk
      ((c.tools.map (fun t => t.id)).foldl
        (fun l i => updateFirst (fun t => t.id == i) (setStatus st none) l)
        c.tools)
      c.awaitingConfirmation = _
  rw [foldl_updList_self (setStatus st none) (setStatus_id st none) c.tools hnd]

/-- A tool already approved, for the C3 counterexample. -/
def tC3 : ToolExecution :=
  { id := "d1", action_id := some "d1", tool_name := "update_outline",
    params := [], status := ToolStatus.approved,
    requires_confirmation := true, preview := some "u", message := none,
    is_dangerous := none }

/-- A state whose active confirmation request holds one already
approved tool. -/
def stateC3 : GMState :=
  { initState with
    pendingConfirm := some { tools := [tC3], awaitingConfirmation := true }
    currentRoundTools := [tC3] }

/-- C3 counterexample: rejectAll flips an entry that was already
approved (not pending) to rejected, so the batch helpers do not touch
only the currently pending entries. -/
theorem C3_counterexample :
    (stateC3.pendingConfirm.map (fun c => c.tools.map (fun t => t.status)))
      = some [ToolStatus.approved] ∧
    ((rejectAll stateC3).pendingConfirm.map (fun c => c.tools.map (fun t => t.status)))
      = some [ToolStatus.rejected] ∧
    ToolStatus.rejected ≠ ToolStatus.approved := by
  exact ⟨by decide, by decide, by decide⟩

/-- C3 amended: confirmAll sets EVERY entry of the active
ConfirmationRequest to approved and rejectAll sets EVERY entry to
rejected, regardless of its prior status (already-decided entries are
overwritten, not skipped); each helper is idempotent under repeated
invocation; and confirmAll immediately followed by rejectAll leaves
every entry of the request rejected, including ids that were approved
before the pair. -/
theorem C3_batch_helpers (s : GMState) (c : ConfirmState)
    (hc : s.pendingConfirm = some c)
    (hnd : (c.tools.map (fun t => t.id)).Nodup) :
    (confirmAll s).pendingConfirm =
      some { tools := c.tools.map (setStatus ToolStatus.approved none)
             awaitingConfirmation := c.awaitingConfirmation } ∧
    (rejectAll s).pendingConfirm =
      some { tools := c.tools.map (setStatus ToolStatus.rejected none)
             awaitingConfirmation := c.awaitingConfirmation } ∧
    confirmAll (confirmAll s) = confirmAll s ∧
    rejectAll (rejectAll s) = rejectAll s ∧
    (rejectAll (confirmAll s)).pendingConfirm =
      some { tools := c.tools.map (setStatus ToolStatus.rejected none)
             awaitingConfirmation := c.awaitingConfirmation } := by
  have hpc1 := updAllIds_pc_self ToolStatus.approved s c hc hnd
  have hpc2 := updAllIds_pc_self ToolStatus.rejected s c hc hnd
  have hca : (confirmAll s).pendingConfirm =
      some { tools := c.tools.map (setStatus ToolStatus.approved none)
             awaitingConfirmation := c.awaitingConfirmation } := by
    rw [confirmAll_eq s c hc]; exact hpc1
  have hra : (rejectAll s).pendingConfirm =
      some { tools := c.tools.map (setStatus ToolStatus.rejected none)
             awaitingConfirmation := c.awaitingConfirmation } := by
    rw [rejectAll_eq s c hc]; exact hpc2
  refine ⟨hca, hra, ?_, ?_, ?_⟩
  · -- idempotency of confirmAll
    rw [confirmAll_eq s c hc]
    rw [confirmAll_eq (updAllIds ToolStatus.approved (c.tools.map (fun t => t.id)) s)
      { tools := c.tools.map (setStatus ToolStatus.approved none)
        awaitingConfirmation := c.awaitingConfirmation }
      (by rw [← confirmAll_eq s c hc]; exact hca)]
    show updAllIds ToolStatus.approved
        ((c.tools.map (setStatus ToolStatus.approved none)).map (fun t => t.id)) _ = _
    rw [map_id_of_setStatus]
    exact updAllIds_idem ToolStatus.approved (c.tools.map (fun t => t.id)) s
  · -- idempotency of rejectAll
    rw [rejectAll_eq s c hc]
    rw [rejectAll_eq (updAllIds ToolStatus.rejected (c.tools.map (fun t => t.id)) s)
      { tools := c.tools.map (setStatus ToolStatus.rejected none)
        awaitingConfirmation := c.awaitingConfirmation }
      (by rw [← rejectAll_eq s c hc]; exact hra)]
    show updAllIds ToolStatus.rejected
        ((c.tools.map (setStatus ToolStatus.rejected none)).map (fun t => t.id)) _ = _
    rw [map_id_of_setStatus]
    exact updAllIds_idem ToolStatus.rejected (c.tools.map (fun t => t.id)) s
  · -- confirmAll then rejectAll rejects everything
    have hc2 : (confirmAll s).pendingConfirm =
        some { tools := c.tools.map (setStatus ToolStatus.approved none)
               awaitingConfirmation := c.awaitingConfirmation } := hca
    have hnd2 : (((c.tools.map (setStatus ToolStatus.approved none)).map
        (fun t => t.id))).Nodup := by
      rw [map_id_of_setStatus]
      exact hnd
    have h := updAllIds_pc_self ToolStatus.rejected (confirmAll s)
      { tools := c.tools.map (setStatus ToolStatus.approved none)
        awaitingConfirmation := c.awaitingConfirmation } hc2 hnd2
    rw [rejectAll_eq (confirmAll s)
      { tools := c.tools.map (setStatus ToolStatus.approved none)
        awaitingConfirmation := c.awaitingConfirmation } hc2]
    rw [h, map_setStatus_setStatus]

/-- Witness for C3 amended at a concrete state. -/
theorem C3_batch_helpers_witness :
    stateC3.pendingConfirm =
      some { tools := [tC3], awaitingConfirmation := true } ∧
    (([tC3] : List ToolExecution).map (fun t => t.id)).Nodup ∧
    (confirmAll stateC3).pendingConfirm =
      some { tools := [tC3].map (setStatus ToolStatus.approved none)
             awaitingConfirmation := true } ∧
    confirmAll (confirmAll stateC3) = confirmAll stateC3 ∧
    (rejectAll (confirmAll stateC3)).pendingConfirm =
      some { tools := [tC3].map (setStatus ToolStatus.rejected none)
             awaitingConfirmation := true } := by
  have h := C3_batch_helpers stateC3
    { tools := [tC3], awaitingConfirmation := true } rfl (by decide)
  exact ⟨rfl, by decide, h.1, h.2.2.1, h.2.2.2.2⟩

/- ===== claim C9: confirm_actions dedup and id uniqueness ===== -/

theorem map_set_eq {α β : Type} (f : α → β) (l : List α) (i : Nat) (v : α) :
    (l.set i v).map f = (l.map f).set i (f v) := by
  induction l generalizing i with
  | nil => rfl
  | cons x xs ih =>
    cases i with
    | zero => rfl
    | succ n => simp [List.set, ih]

theorem insert_ids_sub (l : List ToolExecution) (a : RawAction) (x : String)
    (hx : x ∈ (insertConfirmAction l a).map (fun t => t.id)) :
    x ∈ l.map (fun t => t.id) ∨ x = a.action_id := by
  simp only [insertConfirmAction] at hx
  split at hx
  · rw [map_set_eq] at hx
    exact List.mem_or_eq_of_mem_set hx
  · rw [List.map_append] at hx
    rcases List.mem_append.mp hx with hL | hR
    · exact Or.inl hL
    · right
      simpa using hR

theorem insert_nodup (l : List ToolExecution) (a : RawAction)
    (h1 : (l.map (fun t => t.id)).Nodup)
    (h2 : a.action_id ∉ l.map (fun t => t.id)) :
    ((insertConfirmAction l a).map (fun t => t.id)).Nodup := by
  unfold insertConfirmAction
  split
  · rw [map_set_eq]
    exact h1.set h2
  · rw [List.map_append]
    refine List.nodup_append.mpr ⟨h1, List.nodup_singleton _, ?_⟩
    intro x hx hxs
    simp only [List.map_cons, List.map_nil, List.mem_singleton] at hxs
    have hxa : x = a.action_id := hxs
    exact h2 (hxa ▸ hx)

theorem foldl_insert_nodup (actions : List RawAction) :
    ∀ l : List ToolExecution,
      (l.map (fun t => t.id)).Nodup →
      (actions.map (fun a => a.action_id)).Nodup →
      (∀ a ∈ actions, a.action_id ∉ l.map (fun t => t.id)) →
      ((actions.foldl insertConfirmAction l).map (fun t => t.id)).Nodup := by
  induction actions with
  | nil => intro l h1 _ _; exact h1
  | cons a rest ih =>
    intro l h1 h2 h3
    have hfresh : a.action_id ∉ l.map (fun t => t.id) :=
      h3 a (List.mem_cons_self a rest)
    have h1b := insert_nodup l a h1 hfresh
    have h2b : (rest.map (fun a => a.action_id)).Nodup := (List.nodup_cons.mp h2).2
    have hnotrest : a.action_id ∉ rest.map (fun a => a.action_id) :=
      (List.nodup_cons.mp h2).1
    refine ih (insertConfirmAction l a) h1b h2b ?_
    intro b hb hmem
    rcases insert_ids_sub l a b.action_id hmem with hL | hEq
    · exact h3 b (List.mem_cons_of_mem a hb) hL
    · exact hnotrest (hEq ▸ List.mem_map_of_mem (fun a => a.action_id) hb)

/-- Two actions sharing the same action_id in one confirm_actions
frame, for the C9 counterexample. -/
def raC9a : RawAction :=
  { action_id := "x", tool_name := "tool_a", params := [], preview := "pa",
    is_dangerous := none }

/-- Second action with the same id but a different name. -/
def raC9b : RawAction :=
  { action_id := "x", tool_name := "tool_b", params := [], preview := "pb",
    is_dangerous := none }

/-- C9 counterexample: a confirm_actions frame whose payload reuses an
action id leaves two distinct entries with the same id in the round
list, so the unconditional no-duplicate-ids claim fails. -/
theorem C9_counterexample :
    ¬ (((handleConfirmActions initState [raC9a, raC9b] true).currentRoundTools.map
        (fun t => t.id)).Nodup) := by decide

/-- C9 amended: provided the incoming action ids are pairwise distinct
and fresh with respect to the round list (as server-assigned ids are),
handling a confirm_actions frame preserves id uniqueness of the round
list; an incoming action matching an existing entry by tool_name and
params on an entry not yet marked requires_confirmation replaces that
entry in place (as a pending, requires_confirmation entry), and every
other action is appended exactly once. -/
theorem C9_confirm_actions_dedup (s : GMState) (actions : List RawAction)
    (aw : Bool)
    (h1 : (s.currentRoundTools.map (fun t => t.id)).Nodup)
    (h2 : (actions.map (fun a => a.action_id)).Nodup)
    (h3 : ∀ a ∈ actions, a.action_id ∉ s.currentRoundTools.map (fun t => t.id)) :
    (((handleConfirmActions s actions aw).currentRoundTools).map
      (fun t => t.id)).Nodup ∧
    (∀ (l : List ToolExecution) (a : RawAction) (i : Nat),
      l.findIdx? (confirmMatch a) = some i →
      insertConfirmAction l a = l.set i (mkConfirmTool a)) ∧
    (∀ (l : List ToolExecution) (a : RawAction),
      l.findIdx? (confirmMatch a) = none →
      insertConfirmAction l a = l ++ [mkConfirmTool a]) ∧
    (∀ a : RawAction, (mkConfirmTool a).status = ToolStatus.pending ∧
      (mkConfirmTool a).requires_confirmation = true) := by
  refine ⟨?_, ?_, ?_, ?_⟩
  · exact foldl_insert_nodup actions s.currentRoundTools h1 h2 h3
  · intro l a i h
    simp [insertConfirmAction, h]
  · intro l a h
    simp [insertConfirmAction, h]
  · intro a
    exact ⟨rfl, rfl⟩

/-- Witness for C9 amended on a well-formed frame. -/
theorem C9_confirm_actions_dedup_witness :
    (initState.currentRoundTools.map (fun t => t.id)).Nodup ∧
    (([raC9a] : List RawAction).map (fun a => a.action_id)).Nodup ∧
    (∀ a ∈ ([raC9a] : List RawAction),
      a.action_id ∉ initState.currentRoundTools.map (fun t => t.id)) ∧
    (((handleConfirmActions initState [raC9a] true).currentRoundTools).map
      (fun t => t.id)).Nodup := by
  have h := C9_confirm_actions_dedup initState [raC9a] true
    (by decide) (by decide) (by decide)
  exact ⟨by decide, by decide, by decide, h.1⟩

/- ===== claim C7: discarded confirmation after disconnect ===== -/

/-- The safety property: once a close event has fired and no open has
replaced the connection, the socket is not open and no confirmation
request is active. -/
def ClosedSafe (s : GMState) : Prop :=
  s.closedSinceOpen = true → (s.wsOpen = false ∧ s.pendingConfirm = none)

theorem updateToolStatuses_closedSinceOpen (s : GMState) (A R : List String)
    (t : Option (ToolStatus × ToolStatus)) :
    (updateToolStatuses s A R t).closedSinceOpen = s.closedSinceOpen := by
  rw [updateToolStatuses_eq_folds]
  rw [(foldl_upd_fields _ R _).2.1, (foldl_upd_fields _ A s).2.1]

theorem handleMessage_preserves (s : GMState) (f : ServerFrame) :
    (handleMessage s f).closedSinceOpen = s.closedSinceOpen ∧
    (handleMessage s f).wsOpen = s.wsOpen := by
  cases f <;>
    simp only [handleMessage, handleToolResult, handleConfirmActions,
      updateToolStatus] <;>
    (repeat' split) <;> simp

theorem sendUserMessage_preserves (s : GMState) (m : String)
    (imgs : Option (List String)) (w : Option Bool) :
    (sendUserMessage s m imgs w).closedSinceOpen = s.closedSinceOpen ∧
    (sendUserMessage s m imgs w).wsOpen = s.wsOpen ∧
    (sendUserMessage s m imgs w).pendingConfirm = s.pendingConfirm := by
  simp only [sendUserMessage, sendMessage]
  (repeat' split) <;> exact ⟨rfl, rfl, rfl⟩

theorem sendConfirmResponse_wsOpen (s : GMState) (a r : List String) :
    (sendConfirmResponse s a r).1.wsOpen = s.wsOpen := by
  have h1 := updateToolStatuses_wsOpen s a r none
  simp only [sendConfirmResponse, sendMessage]
  (repeat' split) <;> first | rfl | exact h1

theorem sendConfirmResponse_closed (s : GMState) (a r : List String) :
    (sendConfirmResponse s a r).1.closedSinceOpen = s.closedSinceOpen := by
  have h1 := updateToolStatuses_closedSinceOpen s a r none
  simp only [sendConfirmResponse, sendMessage]
  (repeat' split) <;> first | rfl | exact h1

theorem sendConfirmResponse_pc (s : GMState) (a r : List String) :
    (sendConfirmResponse s a r).1.pendingConfirm = s.pendingConfirm ∨
      (sendConfirmResponse s a r).1.pendingConfirm = none := by
  simp only [sendConfirmResponse, sendMessage]
  (repeat' split) <;> first | exact Or.inl rfl | exact Or.inr rfl

theorem step_preserves_ClosedSafe (s : GMState) (e : Event)
    (hs : ClosedSafe s) : ClosedSafe (step s e) := by
  cases e with
  | wsOpen =>
    intro h
    exact absurd h (by simp [step, handleOpen])
  | wsClose code =>
    intro _
    constructor
    · show (step s (Event.wsClose code)).wsOpen = false
      simp only [step, handleClose, scheduleReconnect]
      split
      · split <;> rfl
      · rfl
    · show (step s (Event.wsClose code)).pendingConfirm = none
      simp only [step, handleClose, scheduleReconnect]
      split
      · split <;> rfl
      · rfl
  | wsError =>
    intro h
    exact hs h
  | frame f =>
    intro h
    by_cases hw : s.wsOpen = true
    · have he : step s (Event.frame f) = handleMessage s f := by
        simp [step, hw]
      rw [he] at h
      have hc : s.closedSinceOpen = true := by
        rw [← (handleMessage_preserves s f).1]
        exact h
      exact absurd hw (by rw [(hs hc).1]; simp)
    · have hw2 : s.wsOpen = false := by
        cases hb : s.wsOpen
        · rfl
        · exact absurd hb hw
      have he : step s (Event.frame f) = s := by
        simp [step, hw2]
      rw [he] at h ⊢
      exact hs h
  | connectReq =>
    intro h
    by_cases hw : s.wsOpen = true
    · have he : step s Event.connectReq = s := by
        simp [step, connectAction, hw]
      rw [he] at h ⊢
      exact hs h
    · have hw2 : s.wsOpen = false := by
        cases hb : s.wsOpen
        · rfl
        · exact absurd hb hw
      have he : step s Event.connectReq =
          { s with reconnectTimer := none
                   connectionStatus := ConnectionStatus.connecting
                   lastError := none } := by
        simp [step, connectAction, hw2]
      rw [he] at h ⊢
      exact hs h
  | disconnectReq =>
    intro h
    exact ⟨rfl, (hs h).2⟩
  | userSend m imgs w =>
    intro h
    have hp := sendUserMessage_preserves s m imgs w
    have hc : s.closedSinceOpen = true := by rw [← hp.1]; exact h
    refine ⟨?_, ?_⟩
    · rw [show (step s (Event.userSend m imgs w)).wsOpen =
        (sendUserMessage s m imgs w).wsOpen from rfl, hp.2.1]
      exact (hs hc).1
    · rw [show (step s (Event.userSend m imgs w)).pendingConfirm =
        (sendUserMessage s m imgs w).pendingConfirm from rfl, hp.2.2]
      exact (hs hc).2
  | confirmResp a r =>
    intro h
    have hc : s.closedSinceOpen = true := by
      rw [← sendConfirmResponse_closed s a r]
      exact h
    refine ⟨?_, ?_⟩
    · rw [show (step s (Event.confirmResp a r)).wsOpen =
        (sendConfirmResponse s a r).1.wsOpen from rfl,
        sendConfirmResponse_wsOpen]
      exact (hs hc).1
    · rcases sendConfirmResponse_pc s a r with hp | hp
      · rw [show (step s (Event.confirmResp a r)).pendingConfirm =
          (sendConfirmResponse s a r).1.pendingConfirm from rfl, hp]
        exact (hs hc).2
      · exact hp
  | approveOne i =>
    intro h
    have hc : s.closedSinceOpen = true := h
    refine ⟨(hs hc).1, ?_⟩
    show (s.pendingConfirm.map (updateToolInConfirm i ToolStatus.approved none))
      = none
    rw [(hs hc).2]
    rfl
  | rejectOne i =>
    intro h
    have hc : s.closedSinceOpen = true := h
    refine ⟨(hs hc).1, ?_⟩
    show (s.pendingConfirm.map (updateToolInConfirm i ToolStatus.rejected none))
      = none
    rw [(hs hc).2]
    rfl
  | markApplied ids =>
    intro h
    have hc : s.closedSinceOpen = true := by
      rw [← (foldl_upd_fields ToolStatus.applied ids s).2.1]
      exact h
    refine ⟨?_, ?_⟩
    · rw [show (step s (Event.markApplied ids)).wsOpen =
        (ids.foldl (fun acc i => updateToolStatus acc i ToolStatus.applied none) s).wsOpen
        from rfl, (foldl_upd_fields ToolStatus.applied ids s).1]
      exact (hs hc).1
    · exact foldl_upd_pc_none ToolStatus.applied ids s (hs hc).2
  | markFailed ids =>
    intro h
    have hc : s.closedSinceOpen = true := by
      rw [← (foldl_upd_fields ToolStatus.failed ids s).2.1]
      exact h
    refine ⟨?_, ?_⟩
    · rw [show (step s (Event.markFailed ids)).wsOpen =
        (ids.foldl (fun acc i => updateToolStatus acc i ToolStatus.failed none) s).wsOpen
        from rfl, (foldl_upd_fields ToolStatus.failed ids s).1]
      exact (hs hc).1
    · exact foldl_upd_pc_none ToolStatus.failed ids s (hs hc).2
  | confirmAllReq =>
    intro h
    by_cases hpc : s.pendingConfirm = none
    · have he : step s Event.confirmAllReq = s := by
        simp [step, confirmAll, hpc]
      rw [he] at h ⊢
      exact hs h
    · obtain ⟨c, hc⟩ := Option.ne_none_iff_exists.mp hpc
      have hcl : s.closedSinceOpen = true := by
        rw [← updateToolStatuses_closedSinceOpen s
          (c.tools.map (fun t => t.id)) [] none]
        rw [show (updateToolStatuses s (c.tools.map (fun t => t.id)) [] none)
          = step s Event.confirmAllReq by
            simp [step, confirmAll, hc.symm]]
        exact h
      exact absurd (hs hcl).2 (fun hn => hpc hn)
  | rejectAllReq =>
    intro h
    by_cases hpc : s.pendingConfirm = none
    · have he : step s Event.rejectAllReq = s := by
        simp [step, rejectAll, hpc]
      rw [he] at h ⊢
      exact hs h
    · obtain ⟨c, hc⟩ := Option.ne_none_iff_exists.mp hpc
      have hcl : s.closedSinceOpen = true := by
        rw [← updateToolStatuses_closedSinceOpen s []
          (c.tools.map (fun t => t.id)) none]
        rw [show (updateToolStatuses s [] (c.tools.map (fun t => t.id)) none)
          = step s Event.rejectAllReq by
            simp [step, rejectAll, hc.symm]]
        exact h
      exact absurd (hs hcl).2 (fun hn => hpc hn)
  | cancelReq =>
    intro h
    by_cases hw : s.wsOpen = true
    · have he : step s Event.cancelReq =
          { s with sentFrames := s.sentFrames ++ [ClientFrame.cancel]
                   isLoading := false
                   pendingConfirm := none } := by
        simp [step, cancelTask, sendMessage, hw]
      rw [he] at h ⊢
      exact ⟨(hs h).1, rfl⟩
    · have hw2 : s.wsOpen = false := by
        cases hb : s.wsOpen
        · rfl
        · exact absurd hb hw
      have he : step s Event.cancelReq =
          { s with isLoading := false, pendingConfirm := none } := by
        simp [step, cancelTask, sendMessage, hw2]
      rw [he] at h ⊢
      exact ⟨(hs h).1, rfl⟩
  | clearConv =>
    intro h
    exact ⟨(hs h).1, rfl⟩
  | clearConfirm =>
    intro h
    exact ⟨(hs h).1, rfl⟩
  | loadHistory hist c =>
    intro h
    by_cases ho : optTruthy c = true
    · have he : step s (Event.loadHistory hist c) =
          { s with messages := hist, conversationId := c } := by
        simp [step, loadMessages, ho]
      rw [he] at h ⊢
      exact hs h
    · have ho2 : optTruthy c = false := by
        cases hb : optTruthy c
        · rfl
        · exact absurd hb ho
      have he : step s (Event.loadHistory hist c) =
          { s with messages := hist } := by
        simp [step, loadMessages, ho2]
      rw [he] at h ⊢
      exact hs h

theorem reachable_ClosedSafe (s : GMState) (h : Reachable s) : ClosedSafe s := by
  induction h with
  | base =>
    intro hb
    exact absurd hb (by decide)
  | next s e hr ih => exact step_preserves_ClosedSafe s e ih

/-- C7: in every reachable state, once the connection has been closed
(any close code, deliberate or abnormal) and not replaced by a newly
opened one, the active ConfirmationRequest is null; and a
confirm_actions frame arriving on an open (reconnected) socket installs
a fresh ConfirmationRequest built from the frame payload, all entries
pending. -/
theorem C7_disconnect_clears_confirm :
    (∀ s, Reachable s → s.closedSinceOpen = true → s.pendingConfirm = none) ∧
    (∀ (s : GMState) (actions : List RawAction) (aw : Option Bool),
      s.wsOpen = true →
      (step s (Event.frame (ServerFrame.confirmActions actions aw))).pendingConfirm
        = some { tools := actions.map mkConfirmTool
                 awaitingConfirmation := aw.getD true } ∧
      ∀ t ∈ actions.map mkConfirmTool, t.status = ToolStatus.pending) := by
  constructor
  · intro s hr hc
    exact (reachable_ClosedSafe s hr hc).2
  · intro s actions aw hw
    constructor
    · simp [step, hw, handleMessage, handleConfirmActions]
    · intro t ht
      obtain ⟨a, _, rfl⟩ := List.mem_map.mp ht
      rfl

/-- Witness for C7 at a concrete reachable closed state and a concrete
reconnected confirm_actions frame. -/
theorem C7_disconnect_clears_confirm_witness :
    Reachable (step initState (Event.wsClose 1006)) ∧
    (step initState (Event.wsClose 1006)).closedSinceOpen = true ∧
    (step initState (Event.wsClose 1006)).pendingConfirm = none ∧
    (step initState Event.wsOpen).wsOpen = true ∧
    (step (step initState Event.wsOpen)
      (Event.frame (ServerFrame.confirmActions [] none))).pendingConfirm =
        some { tools := [], awaitingConfirmation := true } := by
  have hr : Reachable (step initState (Event.wsClose 1006)) :=
    Reachable.next initState (Event.wsClose 1006) Reachable.base
  have h := C7_disconnect_clears_confirm
  refine ⟨hr, by decide, h.1 _ hr (by decide), by decide, ?_⟩
  exact (h.2 (step initState Event.wsOpen) [] none (by decide)).1

/- ===== claim C1: Scenario 1 end to end ===== -/

/-- First proposed action of Scenario 1. -/
def raS1a : RawAction :=
  { action_id := "act1", tool_name := "add_character",
    params := [("name", "Aria")], preview := "add Aria", is_dangerous := none }

/-- Second proposed action of Scenario 1. -/
def raS1b : RawAction :=
  { action_id := "act2", tool_name := "add_character",
    params := [("name", "Bren")], preview := "add Bren", is_dangerous := none }

/-- Third proposed action of Scenario 1. -/
def raS1c : RawAction :=
  { action_id := "act3", tool_name := "add_character",
    params := [("name", "Cole")], preview := "add Cole", is_dangerous := none }

/-- A connected state with an empty Round. -/
def scenario1Start : GMState :=
  { initState with
    wsOpen := true
    connectionStatus := ConnectionStatus.connected }

/-- The Scenario 1 event sequence: user_message, two content frames,
one confirm_actions frame with three actions awaiting continuation, an
in-band confirm_response approving all three, three tool_executed
frames all successful, then done.  The socket stays open throughout,
so applying the handlers directly coincides with the step relation. -/
def scenario1Final : GMState :=
  let s1 := sendUserMessage scenario1Start "add three side characters" none none
  let s2 := handleMessage s1 (ServerFrame.content "Sure, ")
  let s3 := handleMessage s2 (ServerFrame.content "adding them now.")
  let s4 := handleMessage s3
    (ServerFrame.confirmActions [raS1a, raS1b, raS1c] (some true))
  let s5 := (sendConfirmResponse s4 ["act1", "act2", "act3"] []).1
  let s6 := handleMessage s5 (ServerFrame.toolExecuted "act1" true "ok")
  let s7 := handleMessage s6 (ServerFrame.toolExecuted "act2" true "ok")
  let s8 := handleMessage s7 (ServerFrame.toolExecuted "act3" true "ok")
  handleMessage s8 (ServerFrame.done "conv1" none)

/-- C1 counterexample: at the end of Scenario 1 there is exactly one
assistant message holding the three ToolExecutions, but their terminal
status is success, not applied as the claim states (the tool_executed
handler writes success). -/
theorem C1_counterexample :
    (scenario1Final.messages.filter (fun m => m.role == Role.assistant)).length
      = 1 ∧
    ∀ m ∈ scenario1Final.messages.filter (fun m => m.role == Role.assistant),
      ∀ t ∈ m.tools.getD [],
        t.status = ToolStatus.success ∧ t.status ≠ ToolStatus.applied := by
  decide

/-- C1 amended: Scenario 1 leaves the history with exactly the user
message followed by one assistant Message containing exactly the three
ToolExecutions act1, act2, act3, each with terminal success status
`success` (not `applied`: tool_executed maps success to the success
status); the assistant message is finalized when the confirm_response
is submitted. -/
theorem C1_scenario1 :
    scenario1Final.messages.map
        (fun m => (m.role, (m.tools.getD []).map (fun t => (t.id, t.status))))
      = [(Role.user, []),
         (Role.assistant,
           [("act1", ToolStatus.success), ("act2", ToolStatus.success),
            ("act3", ToolStatus.success)])] := by
  decide

/-- Witness for C2 amended at a concrete state. -/
theorem C2_undecided_retain_status_witness :
    stateC2.pendingConfirm = some { tools := [tC2], awaitingConfirmation := true } ∧
    (0 : Nat) < stateC2.currentRoundTools.length ∧
    ∃ ts : List ToolExecution,
      ((sendConfirmResponse stateC2 [] []).1.messages).getLast? =
        some (mkAssistantSnapshot stateC2.streamingContent ts) ∧
      ts.length = stateC2.currentRoundTools.length ∧
      ts.filter (fun t => !(([] : List String).contains t.id)
          && !(([] : List String).contains t.id))
        = stateC2.currentRoundTools.filter
            (fun t => !(([] : List String).contains t.id)
              && !(([] : List String).contains t.id)) := by
  exact ⟨rfl, by decide,
    C2_undecided_retain_status stateC2 [] []
      { tools := [tC2], awaitingConfirmation := true } rfl rfl (by decide)⟩

end GMWS
